import Mathlib

/-!
Verification of the rad-gateway A2A wasm filter (src/filters/a2a-wasm).

The embedding translates the three source files:
- a2a.rs: the A2A request schema and the short-circuiting A2ARequest::validate.
- validation.rs: validate_a2a_payload, estimate_tokens, count_part_characters,
  check_token_bucket and calculate_trust_score.
- lib.rs: the FilterConfig and the on_http_request_body admission path.

Rust machine types are modelled as follows: u64 and usize become Nat (string
lengths are UTF-8 byte counts, matching str::len), f64 becomes the rationals
for the token bucket (only +, *, min and comparison occur) and the reals for
the trust score (exp occurs). serde_json::Value becomes the Json inductive
below, and HashMap of String to Value becomes an association list whose order
is the (unspecified) iteration order of the hash map; serde_json::to_string
is modelled by the renderer below, which serializes entries in list order.
-/

namespace A2AWasm

/-- serde_json::Value: the JSON values stored in Data, args and response
fields of a message part. Nested objects are kept as association lists in
their (deterministic, BTreeMap-backed) serialization order. -/
inductive Json where
  | null
  | bool (b : Bool)
  | num (n : Int)
  | str (s : String)
  | arr (elems : List Json)
  | obj (fields : List (String × Json))

/-- JSON string escaping of one character, as performed by the serde_json
serializer: double quote, backslash and ASCII control characters are escaped,
everything else is emitted verbatim. -/
def escapeChar (c : Char) : String :=
  if c = '"' then "\\\""
  else if c = '\\' then "\\\\"
  else if c = '\n' then "\\n"
  else if c = '\r' then "\\r"
  else if c = '\t' then "\\t"
  else if c = '\x08' then "\\b"
  else if c = '\x0c' then "\\f"
  else if c.toNat < 32 then
    "\\u00" ++ String.singleton (Nat.digitChar (c.toNat / 16)) ++
      String.singleton (Nat.digitChar (c.toNat % 16))
  else String.singleton c

/-- JSON escaping of a whole string (body of a JSON string literal). -/
def escapeString (s : String) : String :=
  s.data.foldl (fun acc c => acc ++ escapeChar c) ""

/-- A JSON string literal: escaped body surrounded by double quotes. -/
def renderStr (s : String) : String := "\"" ++ escapeString s ++ "\""

mutual

/-- Compact serialization of a JSON value, in the style of
serde_json::to_string: no whitespace, entries joined by commas. -/
def Json.render : Json → String
  | .null => "null"
  | .bool b => if b then "true" else "false"
  | .num n => toString n
  | .str s => renderStr s
  | .arr es => "[" ++ renderElems es ++ "]"
  | .obj fs => "\x7b" ++ renderFields fs ++ "\x7d"

/-- Comma-joined serialization of the elements of a JSON array. -/
def renderElems : List Json → String
  | [] => ""
  | [e] => e.render
  | e :: es => e.render ++ "," ++ renderElems es

/-- Comma-joined serialization of key-value entries of a JSON object, in
list order. -/
def renderFields : List (String × Json) → String
  | [] => ""
  | [kv] => renderStr kv.1 ++ ":" ++ kv.2.render
  | kv :: fs => renderStr kv.1 ++ ":" ++ kv.2.render ++ "," ++ renderFields fs

end

/-- serde_json::to_string applied to a HashMap of String to Value, the
entries appearing in the iteration order given by the list. Serialization of
such a map never fails, hence the result is always some; the Option mirrors
the Result type of serde_json::to_string which the source guards with
unwrap_or(0). -/
def to_string (m : List (String × Json)) : Option String :=
  some ("\x7b" ++ renderFields m ++ "\x7d")

/-! ### a2a.rs: schema types -/

/-- MessagePart from a2a.rs: a closed polymorphic message content type. -/
inductive MessagePart where
  | Text (text : String)
  | File (name : String) (mime_type : String) (uri : Option String)
  | Data (data : List (String × Json))
  | FunctionCall (id : String) (name : String) (args : List (String × Json))
  | FunctionResponse (call_id : String) (response : List (String × Json))

/-- MessageObject from a2a.rs. -/
structure MessageObject where
  role : String
  parts : List MessagePart

/-- A2ARequest from a2a.rs. -/
structure A2ARequest where
  task_id : String
  message_object : MessageObject
  capabilities : List String
  metadata : Option Json

/-- ValidationError from a2a.rs. -/
inductive ValidationError where
  | MissingTaskId
  | EmptyMessageParts
  | InvalidCapability (cap : String)
  | InvalidJson (msg : String)

/-- The thiserror display strings of ValidationError. -/
def ValidationError.message : ValidationError → String
  | .MissingTaskId => "task_id is required"
  | .EmptyMessageParts => "message_object.parts cannot be empty"
  | .InvalidCapability cap => "invalid capability: " ++ cap
  | .InvalidJson msg => "invalid JSON: " ++ msg

/-- is_valid_capability, identical in a2a.rs and validation.rs: membership in
the fixed capability vocabulary. -/
def is_valid_capability (cap : String) : Bool :=
  ["a2a", "streaming", "pushNotifications", "stateManagement",
    "artifactSupport"].contains cap

/-- The capability loop of A2ARequest::validate: returns the error for the
first invalid capability, in list order. -/
def check_capabilities : List String → Except ValidationError Unit
  | [] => .ok ()
  | cap :: caps =>
    if is_valid_capability cap then check_capabilities caps
    else .error (.InvalidCapability cap)

/-- A2ARequest::validate from a2a.rs: short-circuiting validation returning
the first violation. -/
def A2ARequest.validate (r : A2ARequest) : Except ValidationError Unit :=
  if r.task_id.isEmpty then .error .MissingTaskId
  else if r.message_object.parts.isEmpty then .error .EmptyMessageParts
  else check_capabilities r.capabilities

/-! ### validation.rs -/

/-- ValidationResult from validation.rs. -/
structure ValidationResult where
  valid : Bool
  estimated_tokens : Nat
  errors : List String
deriving DecidableEq

/-- count_part_characters from validation.rs: the character (byte) cost of
one message part. The uri of a File part is not counted; serialization
failures (map over the Option, getD 0) cost zero. -/
def count_part_characters : MessagePart → Nat
  | .Text text => text.utf8ByteSize
  | .File name mime_type _ => name.utf8ByteSize + mime_type.utf8ByteSize
  | .Data data => ((to_string data).map String.utf8ByteSize).getD 0
  | .FunctionCall _ name args =>
    name.utf8ByteSize + ((to_string args).map String.utf8ByteSize).getD 0
  | .FunctionResponse call_id response =>
    call_id.utf8ByteSize + ((to_string response).map String.utf8ByteSize).getD 0

/-- estimate_tokens from validation.rs: byte count of task_id plus each part
in order, divided by 4 rounding up. -/
def estimate_tokens (request : A2ARequest) : Nat :=
  let chars := request.message_object.parts.foldl
    (fun chars part => chars + count_part_characters part)
    request.task_id.utf8ByteSize
  (chars + 3) / 4

/-- The error-collecting loop body of validate_a2a_payload: the three rule
checks push their messages into the errors vector in order. -/
def payload_errors (request : A2ARequest) : List String :=
  let errors : List String := []
  let errors :=
    if request.task_id.isEmpty then errors ++ ["task_id is required"] else errors
  let errors :=
    if request.message_object.parts.isEmpty then
      errors ++ ["message_object.parts cannot be empty"]
    else errors
  request.capabilities.foldl
    (fun errors cap =>
      if ! is_valid_capability cap then
        errors ++ ["invalid capability: " ++ cap]
      else errors)
    errors

/-- validate_a2a_payload from validation.rs. The serde_json parse of the raw
body is external library code and enters as the already-computed parse
result; a parse error is converted to the InvalidJson display string, exactly
as the map_err in the source. -/
def validate_a2a_payload (parsed : Except String A2ARequest) :
    Except String ValidationResult :=
  match parsed with
  | .error e => .error (ValidationError.InvalidJson e).message
  | .ok request =>
    let errors := payload_errors request
    let estimated_tokens := estimate_tokens request
    .ok ⟨errors.isEmpty, estimated_tokens, errors⟩

/-- check_token_bucket from validation.rs, over the rationals: replenish by
rate times elapsed, cap at max_capacity, admit when the requested cost fits.
Returns (allowed, remaining_tokens). -/
def check_token_bucket (current_tokens max_capacity replenish_rate
    elapsed_seconds estimated_tokens : ℚ) : Bool × ℚ :=
  let available := min (current_tokens + replenish_rate * elapsed_seconds) max_capacity
  if available ≥ estimated_tokens then (true, available - estimated_tokens)
  else (false, available)

/-- calculate_trust_score from validation.rs: exponential decay of the
initial score in the violation count. -/
noncomputable def calculate_trust_score (initial_score decay_constant : ℝ)
    (violations : ℕ) : ℝ :=
  initial_score * Real.exp (-decay_constant * violations)

/-! ### lib.rs: the filter -/

/-- FilterConfig from lib.rs. -/
structure FilterConfig where
  max_tokens_per_request : Nat
  trust_decay_constant : ℚ
  min_trust_score : ℚ
deriving DecidableEq

/-- The derived Default instance of FilterConfig (all fields zero). This is
the configuration actually installed by create_http_context. -/
def FilterConfig.default : FilterConfig := ⟨0, 0, 0⟩

/-- FilterConfig::new from lib.rs (never called by the filter itself). -/
def FilterConfig.new : FilterConfig := ⟨100000, 1 / 10, 65 / 100⟩

/-- proxy-wasm Action values returned by the body callback. -/
inductive Action where
  | Continue
  | Pause
deriving DecidableEq

/-- A local HTTP response injected by send_http_response. -/
structure HttpResponse where
  status : Nat
  headers : List (String × String)
  body : String
deriving DecidableEq

/-- A2AFilter::send_error_response_with_body from lib.rs. -/
def send_error_response_with_body (status : Nat) (body : String) : HttpResponse :=
  ⟨status, [("content-type", "application/json"), ("x-a2a-error", "true")], body⟩

/-- A2AFilter::send_error_response from lib.rs: wraps the message in a small
JSON error object. -/
def send_error_response (status : Nat) (message : String) : HttpResponse :=
  send_error_response_with_body status ("\x7b\"error\": \"" ++ message ++ "\"\x7d")

/-- The error body built for a validation failure: an invalid_a2a_payload
error object carrying the debug rendering of the error list. -/
def error_details_body (errors : List String) : String :=
  "\x7b\"error\": \"invalid_a2a_payload\", \"details\": " ++ reprStr errors ++ "\x7d"

/-- The state of the request body when the callback runs: the host delivered
bytes that are not UTF-8, or a UTF-8 string together with its serde_json
parse result. Both conversions are external library code. -/
inductive BodyInput where
  | Utf8Invalid
  | Body (parsed : Except String A2ARequest)

/-- Everything observable that one on_http_request_body call does: the Action
it returns, the local response it sends (if any), and the request headers it
sets. The source keeps no per-identity state and mutates nothing else. -/
structure BodyOutcome where
  action : Action
  response : Option HttpResponse
  request_headers : List (String × String)
deriving DecidableEq

/-- A2AFilter::on_http_request_body from lib.rs. Pauses before end of
stream; continues when the host returns no body; rejects invalid UTF-8 with
400; then matches on validate_a2a_payload: parse errors get 400, validation
failures get 400 with the details body, an estimate above
max_tokens_per_request gets 429, and otherwise the request continues with
the two observability headers. The SPIFFE header step only logs. -/
def on_http_request_body (config : FilterConfig) (end_of_stream : Bool)
    (body : Option BodyInput) : BodyOutcome :=
  if ! end_of_stream then ⟨.Pause, none, []⟩
  else
    match body with
    | none => ⟨.Continue, none, []⟩
    | some .Utf8Invalid =>
      ⟨.Pause, some (send_error_response 400 "Invalid UTF-8 encoding"), []⟩
    | some (.Body parsed) =>
      match validate_a2a_payload parsed with
      | .ok result =>
        if ! result.valid then
          ⟨.Pause,
            some (send_error_response_with_body 400 (error_details_body result.errors)),
            []⟩
        else if result.estimated_tokens > config.max_tokens_per_request then
          ⟨.Pause, some (send_error_response 429 "Token limit exceeded"), []⟩
        else
          ⟨.Continue, none,
            [("x-a2a-validated", "true"),
              ("x-estimated-tokens", toString result.estimated_tokens)]⟩
      | .error e => ⟨.Pause, some (send_error_response 400 e), []⟩

/-! ### Definitions used only to state the claims -/

/-- Total character (byte) cost of a request, as described by the token
estimator contract: task_id plus the per-part costs in order. -/
def total_chars (r : A2ARequest) : Nat :=
  r.task_id.utf8ByteSize + (r.message_object.parts.map count_part_characters).sum

/-- The error list of the payload validator, written as the concatenation of
the three independent rule checks (one entry per violation, capabilities in
list order with duplicates kept). -/
def payload_errors_spec (r : A2ARequest) : List String :=
  (if r.task_id.isEmpty then ["task_id is required"] else []) ++
    (if r.message_object.parts.isEmpty then
      ["message_object.parts cannot be empty"]
    else []) ++
    r.capabilities.filterMap fun cap =>
      if is_valid_capability cap then none
      else some ("invalid capability: " ++ cap)

/-- Appending one more Text part at the end of the message. -/
def append_text_part (r : A2ARequest) (s : String) : A2ARequest :=
  ⟨r.task_id, ⟨r.message_object.role, r.message_object.parts ++ [.Text s]⟩,
    r.capabilities, r.metadata⟩

/-- Appending a string onto the text of the part at position i, when that
part is a Text part; other positions and part kinds are left unchanged. -/
def append_to_text (s : String) : List MessagePart → Nat → List MessagePart
  | [], _ => []
  | p :: ps, 0 =>
    (match p with
      | .Text t => .Text (t ++ s)
      | q => q) :: ps
  | p :: ps, i + 1 => p :: append_to_text s ps i

/-- Appending a string onto the text of an existing Text part of the request. -/
def append_onto_text_part (r : A2ARequest) (i : Nat) (s : String) : A2ARequest :=
  ⟨r.task_id, ⟨r.message_object.role, append_to_text s r.message_object.parts i⟩,
    r.capabilities, r.metadata⟩

/-- Two message parts that are equal as Rust values: identical except that a
Data, args or response hash map may present its entries in a different
iteration order. -/
inductive PartPerm : MessagePart → MessagePart → Prop where
  | Text (t) : PartPerm (.Text t) (.Text t)
  | File (n m u) : PartPerm (.File n m u) (.File n m u)
  | Data (d₁ d₂) : d₁.Perm d₂ → PartPerm (.Data d₁) (.Data d₂)
  | FunctionCall (i n a₁ a₂) : a₁.Perm a₂ →
      PartPerm (.FunctionCall i n a₁) (.FunctionCall i n a₂)
  | FunctionResponse (c r₁ r₂) : r₁.Perm r₂ →
      PartPerm (.FunctionResponse c r₁) (.FunctionResponse c r₂)

/-- Two requests that are equal as Rust values, allowing the unspecified
hash-map iteration order inside each part to differ. -/
def ReqPerm (r₁ r₂ : A2ARequest) : Prop :=
  r₁.task_id = r₂.task_id ∧
    r₁.message_object.role = r₂.message_object.role ∧
    List.Forall₂ PartPerm r₁.message_object.parts r₂.message_object.parts ∧
    r₁.capabilities = r₂.capabilities ∧
    r₁.metadata = r₂.metadata

/-- The request built in the test_estimate_tokens unit test of validation.rs:
8 + 13 = 21 bytes of content, 6 estimated tokens. -/
def sample_request : A2ARequest :=
  ⟨"task-123", ⟨"user", [.Text "Hello, world!"]⟩, ["a2a"], none⟩

/-- A one-part request whose Data map lists its two entries in one order. -/
def perm_request_a : A2ARequest :=
  ⟨"t", ⟨"user", [.Data [("a", .null), ("b", .bool true)]]⟩, [], none⟩

/-- The same request with the two Data entries in the other iteration order. -/
def perm_request_b : A2ARequest :=
  ⟨"t", ⟨"user", [.Data [("b", .bool true), ("a", .null)]]⟩, [], none⟩

/-- Entry cost inside a serialized object: rendered key, the colon, and the
rendered value. -/
def entry_byte_len (kv : String × Json) : Nat :=
  (renderStr kv.1).utf8ByteSize + 1 + kv.2.render.utf8ByteSize

/-! ### Helper lemmas -/

theorem string_mk_append (l₁ l₂ : List Char) :
    (String.mk l₁ ++ String.mk l₂ : String) = String.mk (l₁ ++ l₂) := rfl

theorem byteLen_append (a b : String) :
    (a ++ b).utf8ByteSize = a.utf8ByteSize + b.utf8ByteSize := by
  cases a with
  | mk l₁ =>
    cases b with
    | mk l₂ =>
      rw [string_mk_append]
      simp [String.utf8ByteSize_mk, String.utf8Len_append]

theorem foldl_add_counts (l : List MessagePart) (a : Nat) :
    l.foldl (fun n p => n + count_part_characters p) a
      = a + (l.map count_part_characters).sum := by
  induction l generalizing a with
  | nil => simp
  | cons p ps ih =>
    simp only [List.foldl_cons, List.map_cons, List.sum_cons, ih]
    omega

theorem estimate_tokens_eq (r : A2ARequest) :
    estimate_tokens r = (total_chars r + 3) / 4 := by
  unfold estimate_tokens total_chars
  rw [foldl_add_counts]

theorem capability_errors_foldl (caps : List String) (errs : List String) :
    caps.foldl
      (fun errors cap =>
        if ! is_valid_capability cap then
          errors ++ ["invalid capability: " ++ cap]
        else errors) errs
      = errs ++ caps.filterMap (fun cap =>
          if is_valid_capability cap then none
          else some ("invalid capability: " ++ cap)) := by
  induction caps generalizing errs with
  | nil => simp
  | cons c cs ih =>
    by_cases hc : is_valid_capability c
    · simp only [List.foldl_cons]
      simpa [hc, List.filterMap_cons] using ih errs
    · simp only [List.foldl_cons]
      simpa [hc, List.filterMap_cons, List.append_assoc] using
        ih (errs ++ ["invalid capability: " ++ c])

theorem payload_errors_eq (r : A2ARequest) :
    payload_errors r = payload_errors_spec r := by
  unfold payload_errors payload_errors_spec
  rw [capability_errors_foldl]
  by_cases h₁ : r.task_id.isEmpty <;>
    by_cases h₂ : r.message_object.parts.isEmpty <;>
      simp [h₁, h₂]

theorem check_capabilities_eq (caps : List String) :
    check_capabilities caps =
      match caps.find? (fun cap => ! is_valid_capability cap) with
      | some cap => .error (.InvalidCapability cap)
      | none => .ok () := by
  induction caps with
  | nil => rfl
  | cons c cs ih =>
    by_cases h : is_valid_capability c <;>
      simp [check_capabilities, List.find?_cons, h, ih]

theorem check_capabilities_ok_iff (caps : List String) :
    check_capabilities caps = .ok () ↔
      ∀ cap ∈ caps, is_valid_capability cap = true := by
  induction caps with
  | nil => simp [check_capabilities]
  | cons c cs ih =>
    by_cases h : is_valid_capability c <;>
      simp [check_capabilities, h, ih]

@[simp] theorem utf8ByteSize_colon : (":" : String).utf8ByteSize = 1 := rfl

@[simp] theorem utf8ByteSize_comma : ("," : String).utf8ByteSize = 1 := rfl

@[simp] theorem utf8ByteSize_empty : ("" : String).utf8ByteSize = 0 := rfl

theorem renderFields_byteLen : ∀ l : List (String × Json),
    (renderFields l).utf8ByteSize = (l.map entry_byte_len).sum + (l.length - 1)
  | [] => by simp [renderFields]
  | [kv] => by
    simp [renderFields, entry_byte_len, byteLen_append]
  | kv :: kv₂ :: t => by
    have ih := renderFields_byteLen (kv₂ :: t)
    simp only [renderFields, byteLen_append, List.map_cons, List.sum_cons,
      List.length_cons, utf8ByteSize_comma, utf8ByteSize_colon,
      entry_byte_len] at ih ⊢
    omega

theorem renderFields_perm_byteLen (l₁ l₂ : List (String × Json))
    (h : l₁.Perm l₂) :
    (renderFields l₁).utf8ByteSize = (renderFields l₂).utf8ByteSize := by
  rw [renderFields_byteLen, renderFields_byteLen,
    (h.map entry_byte_len).sum_eq, h.length_eq]

theorem count_part_characters_perm (p₁ p₂ : MessagePart) (h : PartPerm p₁ p₂) :
    count_part_characters p₁ = count_part_characters p₂ := by
  cases h with
  | Text t => rfl
  | File n m u => rfl
  | Data d₁ d₂ hd =>
    simp [count_part_characters, to_string, byteLen_append,
      renderFields_perm_byteLen _ _ hd]
  | FunctionCall i n a₁ a₂ ha =>
    simp [count_part_characters, to_string, byteLen_append,
      renderFields_perm_byteLen _ _ ha]
  | FunctionResponse c r₁ r₂ hr =>
    simp [count_part_characters, to_string, byteLen_append,
      renderFields_perm_byteLen _ _ hr]

theorem map_counts_forall₂ (ps₁ ps₂ : List MessagePart)
    (h : List.Forall₂ PartPerm ps₁ ps₂) :
    ps₁.map count_part_characters = ps₂.map count_part_characters := by
  induction h with
  | nil => rfl
  | cons hp _ ih => simp [count_part_characters_perm _ _ hp, ih]

theorem append_to_text_le (s : String) :
    ∀ (l : List MessagePart) (i : Nat),
      (l.map count_part_characters).sum ≤
        ((append_to_text s l i).map count_part_characters).sum
  | [], _ => Nat.le_refl _
  | p :: ps, 0 => by
    cases p <;>
      simp [append_to_text, count_part_characters, byteLen_append]
  | p :: ps, i + 1 => by
    have h := append_to_text_le s ps i
    simp only [append_to_text, List.map_cons, List.sum_cons]
    omega

/-! ### Claim theorems -/

/-- C1: for nonnegative stored, capacity, rate and elapsedSeconds and any
cost, check_token_bucket computes available as the minimum of capacity and
stored plus rate times elapsedSeconds, admits with newStored equal to
available minus cost when available is at least cost, and denies with
newStored equal to available otherwise. -/
theorem check_token_bucket_spec (stored capacity rate elapsed cost : ℚ)
    (h₁ : 0 ≤ stored) (h₂ : 0 ≤ capacity) (h₃ : 0 ≤ rate) (h₄ : 0 ≤ elapsed) :
    check_token_bucket stored capacity rate elapsed cost =
      if min capacity (stored + rate * elapsed) ≥ cost then
        (true, min capacity (stored + rate * elapsed) - cost)
      else (false, min capacity (stored + rate * elapsed)) := by
  unfold check_token_bucket
  rw [min_comm capacity (stored + rate * elapsed)]

/-- Witness for C1 at the values of the unit test
test_token_bucket_allows_valid_request. -/
theorem check_token_bucket_spec_witness :
    (0 : ℚ) ≤ 100 ∧ (0 : ℚ) ≤ 1000 ∧ (0 : ℚ) ≤ 10 ∧ (0 : ℚ) ≤ 1 ∧
      check_token_bucket 100 1000 10 1 50 =
        (if min (1000 : ℚ) (100 + 10 * 1) ≥ 50 then
          (true, min (1000 : ℚ) (100 + 10 * 1) - 50)
        else (false, min (1000 : ℚ) (100 + 10 * 1))) :=
  ⟨by norm_num, by norm_num, by norm_num, by norm_num,
    check_token_bucket_spec 100 1000 10 1 50
      (by norm_num) (by norm_num) (by norm_num) (by norm_num)⟩

/-- C2: estimate_tokens is the rounding-up division by 4 of the total
character count, where the total is the byte length of task_id plus the
per-part costs in order; Text costs its text, File costs name plus mimeType
with uri never counted, and Data, FunctionCall and FunctionResponse cost the
length of the serialized mapping (getD 0 on serialization failure), plus the
name for FunctionCall and the callId for FunctionResponse. -/
theorem estimate_tokens_formula (r : A2ARequest) (t name mime cid fname : String)
    (uri : Option String) (d args resp : List (String × Json)) :
    estimate_tokens r = (total_chars r + 3) / 4 ∧
    total_chars r ≤ 4 * estimate_tokens r ∧
    4 * estimate_tokens r < total_chars r + 4 ∧
    count_part_characters (.Text t) = t.utf8ByteSize ∧
    count_part_characters (.File name mime uri)
      = name.utf8ByteSize + mime.utf8ByteSize ∧
    count_part_characters (.Data d)
      = ((to_string d).map String.utf8ByteSize).getD 0 ∧
    count_part_characters (.FunctionCall cid fname args)
      = fname.utf8ByteSize + ((to_string args).map String.utf8ByteSize).getD 0 ∧
    count_part_characters (.FunctionResponse cid resp)
      = cid.utf8ByteSize + ((to_string resp).map String.utf8ByteSize).getD 0 := by
  refine ⟨estimate_tokens_eq r, ?_, ?_, rfl, rfl, rfl, rfl, rfl⟩ <;>
    rw [estimate_tokens_eq] <;> omega

/-- C3: on a parsed request, validate_a2a_payload runs the three rule checks
independently and returns the concatenation of their error lists (one entry
per violation, invalid capabilities in list order with duplicates each
reported), with valid true exactly when that list is empty. -/
theorem validate_a2a_payload_collects_all (r : A2ARequest) :
    validate_a2a_payload (.ok r) =
      .ok ⟨(payload_errors_spec r).isEmpty, estimate_tokens r,
        payload_errors_spec r⟩ ∧
    ((payload_errors_spec r).isEmpty = true ↔ payload_errors_spec r = []) := by
  constructor
  · simp [validate_a2a_payload, payload_errors_eq]
  · exact List.isEmpty_iff

/-- C6 as stated is false: with a negative requested cost the bucket is
credited instead of debited and newStored exceeds the capacity. Here
stored 0, capacity 3, rate 0, elapsed 0, cost -5 admits and returns
newStored 5 greater than 3. -/
theorem token_bucket_bounds_counterexample :
    check_token_bucket 0 3 0 0 (-5) = (true, 5) ∧
      ¬ (check_token_bucket 0 3 0 0 (-5)).2 ≤ 3 := by
  constructor <;> norm_num [check_token_bucket]

/-- C6 amended: when all five inputs are nonnegative, the returned newStored
lies between 0 and capacity. -/
theorem check_token_bucket_bounds (stored capacity rate elapsed cost : ℚ)
    (h₁ : 0 ≤ stored) (h₂ : 0 ≤ capacity) (h₃ : 0 ≤ rate) (h₄ : 0 ≤ elapsed)
    (h₅ : 0 ≤ cost) :
    0 ≤ (check_token_bucket stored capacity rate elapsed cost).2 ∧
      (check_token_bucket stored capacity rate elapsed cost).2 ≤ capacity := by
  have hx : 0 ≤ stored + rate * elapsed := add_nonneg h₁ (mul_nonneg h₃ h₄)
  have hmin : 0 ≤ min (stored + rate * elapsed) capacity := le_min hx h₂
  have hcap : min (stored + rate * elapsed) capacity ≤ capacity := min_le_right _ _
  simp only [check_token_bucket]
  split_ifs with hc
  · exact ⟨sub_nonneg.mpr hc, le_trans (sub_le_self _ h₅) hcap⟩
  · exact ⟨hmin, hcap⟩

/-- Witness for the amended C6 at the values of the unit test
test_token_bucket_allows_valid_request. -/
theorem check_token_bucket_bounds_witness :
    (0 : ℚ) ≤ 100 ∧ (0 : ℚ) ≤ 1000 ∧ (0 : ℚ) ≤ 10 ∧ (0 : ℚ) ≤ 1 ∧ (0 : ℚ) ≤ 50 ∧
      (0 ≤ (check_token_bucket 100 1000 10 1 50).2 ∧
        (check_token_bucket 100 1000 10 1 50).2 ≤ 1000) :=
  ⟨by norm_num, by norm_num, by norm_num, by norm_num, by norm_num,
    check_token_bucket_bounds 100 1000 10 1 50
      (by norm_num) (by norm_num) (by norm_num) (by norm_num) (by norm_num)⟩

/-- C8: appending text to a request, either as one more Text part or onto an
existing Text part, never decreases the token estimate. -/
theorem estimate_tokens_append_monotone (r : A2ARequest) (s : String) (i : Nat) :
    estimate_tokens r ≤ estimate_tokens (append_text_part r s) ∧
      estimate_tokens r ≤ estimate_tokens (append_onto_text_part r i s) := by
  constructor
  · rw [estimate_tokens_eq, estimate_tokens_eq]
    apply Nat.div_le_div_right
    apply Nat.add_le_add_right
    unfold total_chars append_text_part
    simp only [List.map_append, List.sum_append, List.map_cons, List.sum_cons,
      List.map_nil, List.sum_nil, count_part_characters]
    omega
  · rw [estimate_tokens_eq, estimate_tokens_eq]
    apply Nat.div_le_div_right
    apply Nat.add_le_add_right
    unfold total_chars append_onto_text_part
    dsimp only
    have h := append_to_text_le s r.message_object.parts i
    omega

/-- C10: A2ARequest::validate short-circuits, reporting exactly the first
violation in the order task_id, parts, capabilities in list order, and
returns Ok exactly when no check fails. -/
theorem a2a_validate_short_circuit (r : A2ARequest) :
    r.validate =
      (if r.task_id.isEmpty then .error .MissingTaskId
        else if r.message_object.parts.isEmpty then .error .EmptyMessageParts
        else
          match r.capabilities.find? (fun cap => ! is_valid_capability cap) with
          | some cap => .error (.InvalidCapability cap)
          | none => .ok ()) ∧
    (r.validate = .ok () ↔
      r.task_id.isEmpty = false ∧ r.message_object.parts.isEmpty = false ∧
        ∀ cap ∈ r.capabilities, is_valid_capability cap = true) := by
  constructor
  · unfold A2ARequest.validate
    by_cases h₁ : r.task_id.isEmpty <;>
      by_cases h₂ : r.message_object.parts.isEmpty <;>
        simp [h₁, h₂, check_capabilities_eq]
  · unfold A2ARequest.validate
    by_cases h₁ : r.task_id.isEmpty <;>
      by_cases h₂ : r.message_object.parts.isEmpty <;>
        simp [h₁, h₂, check_capabilities_ok_iff]

/-- C7: the token estimate is deterministic. Two requests that are equal as
Rust values, differing at most in the unspecified iteration order of the
Data, args and response hash maps inside their parts, always receive the
same token count: the serialized length of a map is invariant under entry
order. -/
theorem estimate_tokens_deterministic (r₁ r₂ : A2ARequest) (h : ReqPerm r₁ r₂) :
    estimate_tokens r₁ = estimate_tokens r₂ := by
  obtain ⟨ht, -, hp, -, -⟩ := h
  rw [estimate_tokens_eq, estimate_tokens_eq]
  unfold total_chars
  rw [ht, map_counts_forall₂ _ _ hp]

/-- Witness for C7: a concrete pair of requests whose single Data part lists
its two entries in opposite orders gets equal estimates. -/
theorem estimate_tokens_deterministic_witness :
    ReqPerm perm_request_a perm_request_b ∧
      estimate_tokens perm_request_a = estimate_tokens perm_request_b := by
  have h : ReqPerm perm_request_a perm_request_b :=
    ⟨rfl, rfl,
      List.Forall₂.cons (PartPerm.Data _ _ (List.Perm.swap _ _ _)) List.Forall₂.nil,
      rfl, rfl⟩
  exact ⟨h, estimate_tokens_deterministic _ _ h⟩

/-- C9: the trust score is the initial score times the exponential of minus
the decay constant times the violation count; it returns the initial score
unchanged at zero violations and is strictly decreasing in the violation
count whenever the decay constant and the initial score are positive. -/
theorem calculate_trust_score_decay (initial k : ℝ) (v₁ v₂ : ℕ)
    (hk : 0 < k) (hi : 0 < initial) (hv : v₁ < v₂) :
    calculate_trust_score initial k v₁ = initial * Real.exp (-k * v₁) ∧
    calculate_trust_score initial k 0 = initial ∧
    calculate_trust_score initial k v₂ < calculate_trust_score initial k v₁ := by
  refine ⟨rfl, ?_, ?_⟩
  · simp [calculate_trust_score]
  · have hcast : (v₁ : ℝ) < (v₂ : ℝ) := by exact_mod_cast hv
    have hmul : k * v₁ < k * v₂ := mul_lt_mul_of_pos_left hcast hk
    have hexp : Real.exp (-k * v₂) < Real.exp (-k * v₁) := by
      apply Real.exp_lt_exp.mpr
      nlinarith
    exact mul_lt_mul_of_pos_left hexp hi

/-- Witness for C9 at initial score 2, decay constant 1, violation counts 0
and 1. -/
theorem calculate_trust_score_decay_witness :
    (0 : ℝ) < 1 ∧ (0 : ℝ) < 2 ∧ 0 < 1 ∧
      (calculate_trust_score 2 1 0 = 2 * Real.exp (-1 * ((0 : ℕ) : ℝ)) ∧
        calculate_trust_score 2 1 0 = 2 ∧
        calculate_trust_score 2 1 1 < calculate_trust_score 2 1 0) :=
  ⟨by norm_num, by norm_num, by norm_num,
    calculate_trust_score_decay 2 1 0 1 (by norm_num) (by norm_num) (by norm_num)⟩

/-- C4 is a code bug: the body callback never consults the token bucket, any
per-identity rate state, or a violation counter. A validated request within
the token ceiling is admitted unconditionally with only the two
observability headers; no RejectedRateLimited outcome exists. This theorem
evaluates the full admission path of the source on the valid sample request
under the FilterConfig::new configuration. -/
theorem admitted_without_rate_limiting :
    on_http_request_body FilterConfig.new true
        (some (.Body (.ok sample_request))) =
      ⟨.Continue, none,
        [("x-a2a-validated", "true"), ("x-estimated-tokens", "6")]⟩ := by
  rfl

/-- C5 as stated is false: a token-limit rejection is sent with status 429,
not a 400-class status. Under the configuration the filter actually installs
(the derived Default, whose max_tokens_per_request is 0) the valid sample
request estimates 6 tokens, exceeds the ceiling, and is rejected with 429. -/
theorem token_limit_rejection_status_429 :
    payload_errors sample_request = [] ∧
      FilterConfig.default.max_tokens_per_request < estimate_tokens sample_request ∧
      (on_http_request_body FilterConfig.default true
          (some (.Body (.ok sample_request)))).response =
        some (send_error_response 429 "Token limit exceeded") ∧
      (429 : Nat) ≠ 400 := by
  refine ⟨rfl, ?_, rfl, ?_⟩ <;> decide

/-- C5 amended: every rejection response carries status 400 (invalid UTF-8,
JSON parse failure, validation failure) except the token-limit rejection,
which carries status 429; no rate-limited rejection path exists. -/
theorem rejection_status_400_or_429 (config : FilterConfig) (es : Bool)
    (body : Option BodyInput) (resp : HttpResponse)
    (h : (on_http_request_body config es body).response = some resp) :
    resp.status = 400 ∨
      (resp.status = 429 ∧ ∃ r, body = some (.Body (.ok r)) ∧
        payload_errors r = [] ∧
        config.max_tokens_per_request < estimate_tokens r) := by
  cases es with
  | false => simp [on_http_request_body] at h
  | true =>
    cases body with
    | none => simp [on_http_request_body] at h
    | some b =>
      cases b with
      | Utf8Invalid =>
        simp [on_http_request_body] at h
        subst h
        left; rfl
      | Body parsed =>
        cases parsed with
        | error e =>
          simp [on_http_request_body, validate_a2a_payload] at h
          subst h
          left; rfl
        | ok r =>
          simp only [on_http_request_body, validate_a2a_payload] at h
          by_cases hval : payload_errors r = []
          · by_cases htok : config.max_tokens_per_request < estimate_tokens r
            · right
              simp [hval, htok] at h
              subst h
              exact ⟨rfl, r, rfl, hval, htok⟩
            · simp [hval, htok] at h
          · left
            simp [hval] at h
            subst h
            rfl

/-- Witness for the amended C5: the invalid UTF-8 rejection at the default
configuration is covered by the 400 branch. -/
theorem rejection_status_400_or_429_witness :
    (on_http_request_body FilterConfig.default true (some .Utf8Invalid)).response
        = some (send_error_response 400 "Invalid UTF-8 encoding") ∧
      ((send_error_response 400 "Invalid UTF-8 encoding").status = 400 ∨
        ((send_error_response 400 "Invalid UTF-8 encoding").status = 429 ∧
          ∃ r, (some BodyInput.Utf8Invalid : Option BodyInput)
              = some (.Body (.ok r)) ∧
            payload_errors r = [] ∧
            FilterConfig.default.max_tokens_per_request < estimate_tokens r)) :=
  ⟨rfl, rejection_status_400_or_429 FilterConfig.default true
    (some .Utf8Invalid) (send_error_response 400 "Invalid UTF-8 encoding") rfl⟩

end A2AWasm
